import Mathlib

/-!
Shallow embedding of the real-time task-progress delivery subsystem of
`pixcore` (the `TaskWebSocketClient` in `src/frontend/src/lib/api.ts` and the
React consumption adapters in the WebSocket hooks module), together with
theorems settling the specification claims about it.

Callbacks are modelled by their identity as a natural number; whether a given
callback throws when invoked is supplied externally as a function
`throws : Nat → Bool`.  JavaScript `Map`s are modelled as insertion-ordered
association lists with unique keys, JavaScript `Set`s as insertion-ordered
duplicate-free lists; the operations below mirror `Map.get/set/delete` and
`Set.add/delete` on them.
-/

namespace Pixcore

/-- Source: `TaskStatus`: queued, running, success, failed or cancelled. -/
inductive TaskStatus
  | queued
  | running
  | success
  | failed
  | cancelled
deriving DecidableEq, Repr

/-- Source: `TaskResult` from the source. -/
structure TaskResult where
  type : Bool -- true = image, false = video
  url : String
  thumbUrl : Option String := none
  versionId : Option Int := none
deriving DecidableEq, Repr

/-- Source: `TaskProgress` from the source: one progress event for one task. -/
structure TaskProgress where
  taskId : String
  status : TaskStatus
  progress : Int
  message : Option String := none
  estimatedTime : Option Int := none
  result : Option TaskResult := none
  error : Option String := none
deriving DecidableEq, Repr

/-- The terminal-status test exactly as `handleTaskProgress` writes it:
status equals success, or failed, or cancelled. -/
def TaskStatus.isTerminal : TaskStatus → Bool
  | .success => true
  | .failed => true
  | .cancelled => true
  | _ => false

/-- Source: `Map.get`: the value stored under the first (unique) occurrence of a key
in an association list. -/
def mapGet {α : Type} (m : List (String × α)) (k : String) : Option α :=
  match m with
  | [] => none
  | (k', v) :: rest => if k' = k then some v else mapGet rest k

/-- Source: `Map.set`: replace the value under an existing key in place, otherwise
append the new binding at the end (JavaScript insertion order). -/
def mapSet {α : Type} (m : List (String × α)) (k : String) (v : α) :
    List (String × α) :=
  match m with
  | [] => [(k, v)]
  | (k', v') :: rest =>
      if k' = k then (k', v) :: rest else (k', v') :: mapSet rest k v

/-- Source: `Map.delete`: drop the binding for a key. -/
def mapDelete {α : Type} (m : List (String × α)) (k : String) :
    List (String × α) :=
  match m with
  | [] => []
  | (k', v) :: rest =>
      if k' = k then mapDelete rest k else (k', v) :: mapDelete rest k

/-- Source: `Set.add`: append the element unless it is already present. -/
def setAdd (s : List Nat) (c : Nat) : List Nat :=
  if c ∈ s then s else s ++ [c]

/-- Source: `Set.delete`: remove the element. -/
def setDelete (s : List Nat) (c : Nat) : List Nat :=
  s.filter (fun x => x ≠ c)

/-- Source: `WebSocket.readyState` values. -/
inductive ReadyState
  | connecting
  | open
  | closing
  | closed
deriving DecidableEq, Repr

/-- One underlying `WebSocket` object; `id` records which construction of
`new WebSocket(url)` produced it, so that "a second connection was opened"
is observable in the model. -/
structure Socket where
  id : Nat
  readyState : ReadyState
deriving DecidableEq, Repr

/-- Outbound control messages produced by `this.send(...)`. -/
inductive CtrlMsg
  | subscribe (taskId : String)
  | unsubscribe (taskId : String)
  | ping (timestamp : Nat)
deriving DecidableEq, Repr

/-- The mutable state of one `TaskWebSocketClient`.

`pendingReconnects` lists the delays of reconnect timers that have been
scheduled by `scheduleReconnect` and have not fired yet (in schedule order);
`scheduledLog` additionally records every delay ever scheduled, so the
backoff sequence is observable.  `connectPending` is true while the promise
returned by the most recent `connect()` call is still unsettled.
`nextSocketId` is the id the next `new WebSocket(url)` will receive. -/
structure ClientState where
  ws : Option Socket
  reconnectAttempts : Nat
  isManualClose : Bool
  pingActive : Bool
  connectPending : Bool
  nextSocketId : Nat
  pendingReconnects : List Nat
  scheduledLog : List Nat
  taskCallbacks : List (String × List Nat)
  globalProgressCallbacks : List Nat
  connectionCallbacks : List Nat
  errorCallbacks : List Nat
  outbox : List CtrlMsg
deriving DecidableEq, Repr

/-- Source: `maxReconnectAttempts = 5`. -/
def maxReconnectAttempts : Nat := 5

/-- Source: `reconnectDelay = 1000`. -/
def reconnectDelay : Nat := 1000

/-- A freshly constructed client: no socket, no subscriptions. -/
def initialState : ClientState where
  ws := none
  reconnectAttempts := 0
  isManualClose := false
  pingActive := false
  connectPending := false
  nextSocketId := 0
  pendingReconnects := []
  scheduledLog := []
  taskCallbacks := []
  globalProgressCallbacks := []
  connectionCallbacks := []
  errorCallbacks := []
  outbox := []

/-- Source: `isConnected()`: true iff the underlying transport reports `OPEN`. -/
def isConnected (s : ClientState) : Bool :=
  match s.ws with
  | some w => w.readyState = .open
  | none => false

/-- Source: `send(data)`: serialise and transmit only when the socket is open;
otherwise silently drop (exactly the guard in the source). -/
def send (s : ClientState) (m : CtrlMsg) : ClientState :=
  if isConnected s then { s with outbox := s.outbox ++ [m] } else s

/-- Source: `subscribeToTask(taskId, callback)`: create the per-task set if absent,
add the callback, then send a `subscribe` control message. -/
def subscribeToTask (s : ClientState) (tid : String) (c : Nat) : ClientState :=
  let cur := (mapGet s.taskCallbacks tid).getD []
  send { s with taskCallbacks := mapSet s.taskCallbacks tid (setAdd cur c) }
    (.subscribe tid)

/-- Source: `unsubscribeFromTask(taskId, callback)`: remove the callback from the
per-task set; if the set becomes empty, delete the whole entry and send an
`unsubscribe` control message. -/
def unsubscribeFromTask (s : ClientState) (tid : String) (c : Nat) :
    ClientState :=
  match mapGet s.taskCallbacks tid with
  | none => s
  | some l =>
      let l' := setDelete l c
      if l' = [] then
        send { s with taskCallbacks := mapDelete s.taskCallbacks tid }
          (.unsubscribe tid)
      else
        { s with taskCallbacks := mapSet s.taskCallbacks tid l' }

/-- Source: `onProgress(callback)`: add a global progress callback. -/
def onProgress (s : ClientState) (c : Nat) : ClientState :=
  { s with globalProgressCallbacks := setAdd s.globalProgressCallbacks c }

/-- Removing a global progress callback (the disposer `onProgress` returns). -/
def removeProgress (s : ClientState) (c : Nat) : ClientState :=
  { s with globalProgressCallbacks := setDelete s.globalProgressCallbacks c }

/-- Source: `onConnectionChange(callback)`: add a connection-state observer. -/
def onConnectionChange (s : ClientState) (c : Nat) : ClientState :=
  { s with connectionCallbacks := setAdd s.connectionCallbacks c }

/-- Source: `onError(callback)`: add an error observer. -/
def onError (s : ClientState) (c : Nat) : ClientState :=
  { s with errorCallbacks := setAdd s.errorCallbacks c }

/-- Invoking one list of callbacks with `try { callback(...) } catch { log }`
around each call: every callback in the list is invoked (first component);
those whose invocation threw are caught and logged (second component), and
iteration continues past them. -/
def fanOut (throws : Nat → Bool) : List Nat → List Nat × List Nat
  | [] => ([], [])
  | c :: rest =>
      let r := fanOut throws rest
      if throws c then (c :: r.1, c :: r.2) else (c :: r.1, r.2)

/-- Source: `handleTaskProgress(progress)`: notify the per-task subscribers, then the
global subscribers (each call guarded by try/catch), then — if the status is
terminal — delete the whole per-task entry.  Returns the new state, the list
of callbacks invoked (in invocation order) and the list of callback
exceptions caught and logged. -/
def handleTaskProgress (throws : Nat → Bool) (s : ClientState)
    (p : TaskProgress) : ClientState × List Nat × List Nat :=
  let perTask := (mapGet s.taskCallbacks p.taskId).getD []
  let r1 := fanOut throws perTask
  let r2 := fanOut throws s.globalProgressCallbacks
  let tc :=
    if p.status.isTerminal then mapDelete s.taskCallbacks p.taskId
    else s.taskCallbacks
  ({ s with taskCallbacks := tc }, r1.1 ++ r2.1, r1.2 ++ r2.2)

/-- How a `connect()` call returned to its caller: the promise was resolved
immediately because the socket was already open, or a fresh connection
attempt was started and the promise left pending. -/
inductive ConnectOutcome
  | alreadyOpen
  | attemptStarted
deriving DecidableEq, Repr

/-- Settlement of the pending `connect()` promise by a socket event. -/
inductive Settle
  | resolved
  | rejected
deriving DecidableEq, Repr

/-- Source: `connect()`: if the socket is already `OPEN`, resolve immediately and
change nothing.  Otherwise clear `isManualClose` and construct a new
`WebSocket` (in `CONNECTING` state), leaving the returned promise pending
until `onopen`/`onerror` fires. -/
def connectCall (s : ClientState) : ClientState × ConnectOutcome :=
  if isConnected s then (s, .alreadyOpen)
  else
    ({ s with
        isManualClose := false
        ws := some { id := s.nextSocketId, readyState := .connecting }
        nextSocketId := s.nextSocketId + 1
        connectPending := true },
      .attemptStarted)

/-- Firing of the socket `onopen` handler: the transport reports open, the
reconnect-attempt counter resets to 0, the heartbeat starts, all
connection-state observers are notified with `true`, and the pending
`connect()` promise (if any) resolves.  Returns the new state, the observers
notified, and the promise settlement. -/
def evOpen (s : ClientState) : ClientState × List Nat × Option Settle :=
  match s.ws with
  | none => (s, [], none)
  | some w =>
      ({ s with
          ws := some { w with readyState := .open }
          reconnectAttempts := 0
          pingActive := true
          connectPending := false },
        s.connectionCallbacks,
        if s.connectPending then some .resolved else none)

/-- Firing of the socket `onerror` handler: all error observers are notified
and the pending `connect()` promise (if any) rejects.  Nothing else in the
client state changes. -/
def evError (s : ClientState) : ClientState × List Nat × Option Settle :=
  ({ s with connectPending := false },
    s.errorCallbacks,
    if s.connectPending then some .rejected else none)

/-- Source: `scheduleReconnect()`: increment the attempt counter and schedule a timer
with delay `reconnectDelay * 2 ^ (attempts - 1)`. -/
def scheduleReconnect (s : ClientState) : ClientState :=
  let attempts := s.reconnectAttempts + 1
  let delay := reconnectDelay * 2 ^ (attempts - 1)
  { s with
      reconnectAttempts := attempts
      pendingReconnects := s.pendingReconnects ++ [delay]
      scheduledLog := s.scheduledLog ++ [delay] }

/-- Firing of the socket `onclose` handler (the transport has moved the socket
to `CLOSED`): stop the heartbeat, notify connection-state observers with
`false`, and — unless the close was manual or the attempt counter has reached
`maxReconnectAttempts` — schedule a reconnect.  Returns the new state and the
observers notified. -/
def evClose (s : ClientState) : ClientState × List Nat :=
  match s.ws with
  | none => (s, [])
  | some w =>
      let s1 := { s with
        ws := some { w with readyState := .closed }
        pingActive := false }
      let s2 :=
        if ¬s1.isManualClose ∧ s1.reconnectAttempts < maxReconnectAttempts
        then scheduleReconnect s1 else s1
      (s2, s.connectionCallbacks)

/-- A scheduled reconnect timer firing: the timer is consumed, and unless
`disconnect()` has set `isManualClose` in the meantime, `connect()` is called
again; its promise carries a `.catch` so a failure of this attempt is logged
rather than raised. -/
def fireReconnect (s : ClientState) : ClientState :=
  match s.pendingReconnects with
  | [] => s
  | _ :: rest =>
      let s1 := { s with pendingReconnects := rest }
      if s1.isManualClose then s1 else (connectCall s1).1

/-- Source: `disconnect()`: mark the closure as manual, stop the heartbeat, close the
socket and drop the handle.  Pending reconnect timers are not cancelled (they
are skipped when they fire, via `isManualClose`). -/
def disconnect (s : ClientState) : ClientState :=
  let s1 := { s with isManualClose := true, pingActive := false }
  match s1.ws with
  | some _ => { s1 with ws := none }
  | none => s1

/-! ## Multi-task consumption adapter (`useMultiTaskProgress`)

The hook keeps a `tasks : Map<string, TaskProgress>` of latest events and a
`unsubscribeRefs : Map<string, () => void>` of disposers.  Each disposer
closes over the task id and the hook-local callback registered for it, so we
model `unsubscribeRefs` as a map from task id to the identity of that
callback; fresh callback identities are drawn from `nextCb`. -/

/-- State of one `useMultiTaskProgress` adapter together with the client it
subscribes through. -/
structure MultiTaskState where
  client : ClientState
  tasks : List (String × TaskProgress)
  subs : List (String × Nat)
  nextCb : Nat
deriving DecidableEq, Repr

/-- The adapter operation `subscribe(taskId)`: a no-op when already subscribed;
otherwise register a fresh hook callback with the client and remember the
disposer. -/
def MultiTaskState.subscribe (s : MultiTaskState) (tid : String) :
    MultiTaskState :=
  match mapGet s.subs tid with
  | some _ => s
  | none =>
      { s with
          client := subscribeToTask s.client tid s.nextCb
          subs := mapSet s.subs tid s.nextCb
          nextCb := s.nextCb + 1 }

/-- The adapter operation `unsubscribe(taskId)`: run the remembered disposer
(if any) and drop it, then delete the task entry from the map
unconditionally. -/
def MultiTaskState.unsubscribe (s : MultiTaskState) (tid : String) :
    MultiTaskState :=
  let s1 :=
    match mapGet s.subs tid with
    | some c =>
        { s with
            client := unsubscribeFromTask s.client tid c
            subs := mapDelete s.subs tid }
    | none => s
  { s1 with tasks := mapDelete s1.tasks tid }

/-- The keep test written in `clearCompleted`: the status differs from
success AND differs from failed (note: cancelled passes this test). -/
def keptByClear (st : TaskStatus) : Bool :=
  st ≠ TaskStatus.success ∧ st ≠ TaskStatus.failed

/-- The iteration inside `clearCompleted`: walk the task map in insertion
order; re-insert entries that pass the keep test, and for the others run and
drop the remembered disposer. -/
def clearGo (cl : ClientState) (subs : List (String × Nat)) :
    List (String × TaskProgress) →
      ClientState × List (String × Nat) × List (String × TaskProgress)
  | [] => (cl, subs, [])
  | e :: rest =>
      if keptByClear e.2.status then
        let r := clearGo cl subs rest
        (r.1, r.2.1, e :: r.2.2)
      else
        match mapGet subs e.1 with
        | some c => clearGo (unsubscribeFromTask cl e.1 c) (mapDelete subs e.1) rest
        | none => clearGo cl subs rest

/-- The adapter operation `clearCompleted()`. -/
def MultiTaskState.clearCompleted (s : MultiTaskState) : MultiTaskState :=
  let r := clearGo s.client s.subs s.tasks
  { s with client := r.1, subs := r.2.1, tasks := r.2.2 }

/-! ## Concrete traces and example states used by witnesses -/

/-- A client that connected successfully: `connect()` followed by the open
event. -/
def openedState : ClientState := (evOpen (connectCall initialState).1).1

/-- One failed reconnect episode: the pending timer fires, the new attempt
errors, and the close event for it is delivered. -/
def failCycle (s : ClientState) : ClientState :=
  (evClose (evError (fireReconnect s)).1).1

/-- The state after the Nth unexpected close: the first close interrupts the
successful connection; each further close ends a failed reconnect attempt. -/
def afterCloses : Nat → ClientState
  | 0 => openedState
  | 1 => (evClose openedState).1
  | n + 2 => failCycle (afterCloses (n + 1))

/-- An example throwing-behaviour: exactly callback 3 throws. -/
def exThrows : Nat → Bool := fun c => c == 3

/-- An example connected client with one per-task subscriber (callback 3 for
task t1) and one global subscriber (callback 9). -/
def exOpenClient : ClientState :=
  { initialState with
      ws := some { id := 0, readyState := .open }
      taskCallbacks := [("t1", [3])]
      globalProgressCallbacks := [9] }

/-- An example running-status progress event for task t1. -/
def exRunning : TaskProgress :=
  { taskId := "t1", status := .running, progress := 40 }

/-- An example success-status (terminal) progress event for task t1. -/
def exSuccess : TaskProgress :=
  { taskId := "t1", status := .success, progress := 100 }

/-- An example cancelled-status (terminal) progress event for task t1. -/
def exCancelled : TaskProgress :=
  { taskId := "t1", status := .cancelled, progress := 100 }

/-- An example multi-task adapter holding one cancelled task t1, subscribed
through hook callback 0. -/
def exMulti : MultiTaskState :=
  { client := { initialState with taskCallbacks := [("t1", [0])] }
    tasks := [("t1", exCancelled)]
    subs := [("t1", 0)]
    nextCb := 1 }

/-- The client reached by registering error observer 7, calling `connect()`
on a fresh client, and the attempt failing: the error event fires and then
the close event. -/
def failedConnectClose : ClientState :=
  (evClose (evError (connectCall (onError initialState 7)).1).1).1

/-! ## Helper lemmas about the Map/Set model and the fan-out loop -/

theorem fanOut_fst (throws : Nat → Bool) (l : List Nat) :
    (fanOut throws l).1 = l := by
  induction l with
  | nil => rfl
  | cons c rest ih =>
      simp only [fanOut]
      split <;> simp [ih]

theorem fanOut_snd (throws : Nat → Bool) (l : List Nat) :
    (fanOut throws l).2 = l.filter throws := by
  induction l with
  | nil => rfl
  | cons c rest ih =>
      simp only [fanOut, List.filter]
      rcases h : throws c <;> simp [h, ih]

theorem mapGet_mapSet_self {α : Type} (m : List (String × α)) (k : String)
    (v : α) : mapGet (mapSet m k v) k = some v := by
  induction m with
  | nil => simp [mapSet, mapGet]
  | cons e rest ih =>
      obtain ⟨k', v'⟩ := e
      by_cases h : k' = k
      · simp [mapSet, mapGet, h]
      · simp [mapSet, mapGet, h, ih]

theorem mapGet_mapSet_ne {α : Type} (m : List (String × α)) (k k' : String)
    (v : α) (h : k' ≠ k) : mapGet (mapSet m k v) k' = mapGet m k' := by
  induction m with
  | nil => simp [mapSet, mapGet, Ne.symm h]
  | cons e rest ih =>
      obtain ⟨k₀, v₀⟩ := e
      by_cases h₀ : k₀ = k
      · subst h₀
        simp [mapSet, mapGet, Ne.symm h]
      · simp only [mapSet, if_neg h₀]
        by_cases h₁ : k₀ = k'
        · simp [mapGet, h₁]
        · simp [mapGet, h₁, ih]

theorem mapGet_mapDelete_self {α : Type} (m : List (String × α)) (k : String) :
    mapGet (mapDelete m k) k = none := by
  induction m with
  | nil => rfl
  | cons e rest ih =>
      obtain ⟨k₀, v₀⟩ := e
      by_cases h : k₀ = k
      · simpa [mapDelete, h] using ih
      · simpa [mapDelete, h, mapGet] using ih

theorem mapGet_mapDelete_ne {α : Type} (m : List (String × α)) (k k' : String)
    (h : k' ≠ k) : mapGet (mapDelete m k) k' = mapGet m k' := by
  induction m with
  | nil => rfl
  | cons e rest ih =>
      obtain ⟨k₀, v₀⟩ := e
      by_cases h₀ : k₀ = k
      · subst h₀
        simp [mapDelete, mapGet, Ne.symm h, ih]
      · by_cases h₁ : k₀ = k'
        · simp [mapDelete, mapGet, h₀, h₁, h]
        · simp [mapDelete, mapGet, h₀, h₁, ih]

theorem mapDelete_of_get_none {α : Type} (m : List (String × α)) (k : String)
    (h : mapGet m k = none) : mapDelete m k = m := by
  induction m with
  | nil => rfl
  | cons e rest ih =>
      obtain ⟨k₀, v₀⟩ := e
      by_cases h₀ : k₀ = k
      · simp [mapGet, h₀] at h
      · simp only [mapGet, if_neg h₀] at h
        simp [mapDelete, h₀, ih h]

theorem mapSet_of_get_none {α : Type} (m : List (String × α)) (k : String)
    (v : α) (h : mapGet m k = none) : mapSet m k v = m ++ [(k, v)] := by
  induction m with
  | nil => rfl
  | cons e rest ih =>
      obtain ⟨k₀, v₀⟩ := e
      by_cases h₀ : k₀ = k
      · simp [mapGet, h₀] at h
      · simp only [mapGet, if_neg h₀] at h
        simp [mapSet, h₀, ih h]

theorem mapGet_append_of_none {α : Type} (m l : List (String × α))
    (k : String) (h : mapGet m k = none) :
    mapGet (m ++ l) k = mapGet l k := by
  induction m with
  | nil => rfl
  | cons e rest ih =>
      obtain ⟨k₀, v₀⟩ := e
      by_cases h₀ : k₀ = k
      · simp [mapGet, h₀] at h
      · simp only [mapGet, if_neg h₀] at h
        simp [mapGet, h₀, ih h]

theorem mapDelete_append {α : Type} (m l : List (String × α)) (k : String) :
    mapDelete (m ++ l) k = mapDelete m k ++ mapDelete l k := by
  induction m with
  | nil => rfl
  | cons e rest ih =>
      obtain ⟨k₀, v₀⟩ := e
      by_cases h₀ : k₀ = k <;> simp [mapDelete, h₀, ih]

theorem mapSet_mapSet {α : Type} (m : List (String × α)) (k : String)
    (v v' : α) : mapSet (mapSet m k v) k v' = mapSet m k v' := by
  induction m with
  | nil => simp [mapSet]
  | cons e rest ih =>
      obtain ⟨k₀, v₀⟩ := e
      by_cases h₀ : k₀ = k
      · simp [mapSet, h₀]
      · simp [mapSet, h₀, ih]

theorem setAdd_idem (l : List Nat) (c : Nat) :
    setAdd (setAdd l c) c = setAdd l c := by
  by_cases hc : c ∈ l <;> simp [setAdd, hc]

theorem setDelete_single (c : Nat) : setDelete [c] c = [] := by
  simp [setDelete]

theorem send_taskCallbacks (s : ClientState) (m : CtrlMsg) :
    (send s m).taskCallbacks = s.taskCallbacks := by
  simp only [send]
  split <;> rfl

theorem send_globals (s : ClientState) (m : CtrlMsg) :
    (send s m).globalProgressCallbacks = s.globalProgressCallbacks := by
  simp only [send]
  split <;> rfl

theorem subscribeToTask_taskCallbacks (s : ClientState) (tid : String)
    (c : Nat) :
    (subscribeToTask s tid c).taskCallbacks
      = mapSet s.taskCallbacks tid
          (setAdd ((mapGet s.taskCallbacks tid).getD []) c) := by
  simp [subscribeToTask, send_taskCallbacks]

theorem subscribeToTask_globals (s : ClientState) (tid : String) (c : Nat) :
    (subscribeToTask s tid c).globalProgressCallbacks
      = s.globalProgressCallbacks := by
  simp [subscribeToTask, send_globals]

theorem unsubscribeFromTask_taskCallbacks (s : ClientState) (tid : String)
    (c : Nat) :
    (unsubscribeFromTask s tid c).taskCallbacks
      = match mapGet s.taskCallbacks tid with
        | none => s.taskCallbacks
        | some l =>
            if setDelete l c = [] then mapDelete s.taskCallbacks tid
            else mapSet s.taskCallbacks tid (setDelete l c) := by
  cases h : mapGet s.taskCallbacks tid with
  | none => simp [unsubscribeFromTask, h]
  | some l =>
      simp only [unsubscribeFromTask, h]
      split <;> simp [send_taskCallbacks]

theorem mapGet_mapDelete_none {α : Type} (m : List (String × α))
    (k tid : String) (h : mapGet m tid = none) :
    mapGet (mapDelete m k) tid = none := by
  by_cases hk : tid = k
  · subst hk; exact mapGet_mapDelete_self m tid
  · rw [mapGet_mapDelete_ne m k tid hk]; exact h

theorem unsubscribeFromTask_get_ne (s : ClientState) (tid tid' : String)
    (c : Nat) (h : tid ≠ tid') :
    mapGet (unsubscribeFromTask s tid' c).taskCallbacks tid
      = mapGet s.taskCallbacks tid := by
  rw [unsubscribeFromTask_taskCallbacks]
  cases hg : mapGet s.taskCallbacks tid' with
  | none => rfl
  | some l =>
      by_cases he : setDelete l c = []
      · simp [he, mapGet_mapDelete_ne _ _ _ h]
      · simp [he, mapGet_mapSet_ne _ _ _ _ h]

theorem unsubscribeFromTask_get_none (s : ClientState) (tid tid' : String)
    (c : Nat) (h : mapGet s.taskCallbacks tid = none) :
    mapGet (unsubscribeFromTask s tid' c).taskCallbacks tid = none := by
  by_cases hk : tid = tid'
  · subst hk
    rw [unsubscribeFromTask_taskCallbacks, h]
    exact h
  · rw [unsubscribeFromTask_get_ne s tid tid' c hk]; exact h

theorem subscribe_unsubscribe_cycle (s : ClientState) (tid : String) (c : Nat)
    (hnone : mapGet s.taskCallbacks tid = none) :
    (unsubscribeFromTask (subscribeToTask s tid c) tid c).taskCallbacks
      = s.taskCallbacks := by
  have hsub : (subscribeToTask s tid c).taskCallbacks
      = s.taskCallbacks ++ [(tid, [c])] := by
    rw [subscribeToTask_taskCallbacks, hnone]
    simp [setAdd, mapSet_of_get_none s.taskCallbacks tid _ hnone]
  rw [unsubscribeFromTask_taskCallbacks, hsub,
    mapGet_append_of_none _ _ _ hnone]
  simp [mapGet, setDelete, mapDelete_append,
    mapDelete_of_get_none _ _ hnone, mapDelete]

theorem handleTaskProgress_invoked_congr (throws : Nat → Bool)
    (s₁ s₂ : ClientState) (p : TaskProgress)
    (h1 : s₁.taskCallbacks = s₂.taskCallbacks)
    (h2 : s₁.globalProgressCallbacks = s₂.globalProgressCallbacks) :
    (handleTaskProgress throws s₁ p).2.1
      = (handleTaskProgress throws s₂ p).2.1 := by
  simp [handleTaskProgress, h1, h2]

theorem disconnect_eq (s : ClientState) :
    disconnect s
      = { s with isManualClose := true, pingActive := false, ws := none } := by
  cases h : s.ws <;> simp [disconnect, h]

/-! ## Claim theorems -/

/-- C1: dispatching a terminal-status event first notifies every per-task
callback for its task id and then every global callback with that event,
then removes the whole per-task entry for that id (global callbacks
untouched), all within the same dispatch and for every throwing behaviour of
the callbacks; a subsequently dispatched event for the same task id invokes
no previously registered per-task callback but still invokes every global
callback. -/
theorem terminal_dispatch_cleans_up (throws : Nat → Bool) (s : ClientState)
    (p : TaskProgress) (hterm : p.status.isTerminal = true) :
    (handleTaskProgress throws s p).2.1
      = (mapGet s.taskCallbacks p.taskId).getD [] ++ s.globalProgressCallbacks ∧
    mapGet (handleTaskProgress throws s p).1.taskCallbacks p.taskId = none ∧
    (handleTaskProgress throws s p).1.globalProgressCallbacks
      = s.globalProgressCallbacks ∧
    (∀ (throws2 : Nat → Bool) (p2 : TaskProgress), p2.taskId = p.taskId →
      (handleTaskProgress throws2 (handleTaskProgress throws s p).1 p2).2.1
        = s.globalProgressCallbacks) := by
  refine ⟨?_, ?_, ?_, ?_⟩
  · simp [handleTaskProgress, fanOut_fst]
  · simp [handleTaskProgress, hterm, mapGet_mapDelete_self]
  · simp [handleTaskProgress]
  · intro throws2 p2 hp2
    simp [handleTaskProgress, hterm, hp2, mapGet_mapDelete_self, fanOut_fst]

/-- Witness for C1 at a concrete input: a success event for t1 dispatched to
the example client (where the per-task callback 3 throws) leaves no per-task
entry for t1, and a second dispatch for t1 reaches only the global
callback 9. -/
theorem terminal_dispatch_cleans_up_witness :
    mapGet (handleTaskProgress exThrows exOpenClient exSuccess).1.taskCallbacks
        "t1" = none ∧
    (handleTaskProgress exThrows
        (handleTaskProgress exThrows exOpenClient exSuccess).1 exRunning).2.1
      = [9] :=
  ⟨(terminal_dispatch_cleans_up exThrows exOpenClient exSuccess (by decide)).2.1,
   (terminal_dispatch_cleans_up exThrows exOpenClient exSuccess (by decide)).2.2.2
     exThrows exRunning rfl⟩

/-- C4: during dispatch of one event, every registered per-task and global
callback is invoked no matter which callbacks throw (the exceptions are
caught and logged at the dispatch site — the logged list is exactly the
throwing callbacks), and the resulting state is the same as if no callback
had thrown. -/
theorem dispatch_isolates_callback_exceptions (throws : Nat → Bool)
    (s : ClientState) (p : TaskProgress) :
    (handleTaskProgress throws s p).2.1
      = (mapGet s.taskCallbacks p.taskId).getD [] ++ s.globalProgressCallbacks ∧
    (handleTaskProgress throws s p).2.2
      = ((mapGet s.taskCallbacks p.taskId).getD []
          ++ s.globalProgressCallbacks).filter throws ∧
    (handleTaskProgress throws s p).1
      = (handleTaskProgress (fun _ => false) s p).1 := by
  refine ⟨by simp [handleTaskProgress, fanOut_fst], ?_,
    by simp [handleTaskProgress]⟩
  simp [handleTaskProgress, fanOut_snd, List.filter_append]

/-- C8: calling `connect()` while the transport is already open resolves
immediately and changes nothing: no second connection is constructed (the
state, in particular the socket-id counter and every subscription registry,
is returned untouched). -/
theorem connect_when_open_is_noop (s : ClientState) (w : Socket)
    (hw : s.ws = some w) (hopen : w.readyState = ReadyState.open) :
    connectCall s = (s, ConnectOutcome.alreadyOpen) ∧
    (connectCall s).1.taskCallbacks = s.taskCallbacks ∧
    (connectCall s).1.globalProgressCallbacks = s.globalProgressCallbacks ∧
    (connectCall s).1.nextSocketId = s.nextSocketId := by
  have h : connectCall s = (s, ConnectOutcome.alreadyOpen) := by
    simp [connectCall, isConnected, hw, hopen]
  exact ⟨h, by rw [h], by rw [h], by rw [h]⟩

/-- Witness for C8: the example connected client. -/
theorem connect_when_open_is_noop_witness :
    connectCall exOpenClient = (exOpenClient, ConnectOutcome.alreadyOpen) :=
  (connect_when_open_is_noop exOpenClient
    { id := 0, readyState := ReadyState.open } rfl rfl).1

/-- C9: `disconnect()` touches only connection-related state — it sets the
manual-close flag, stops the heartbeat and clears the socket handle — while
every per-task, global, connection-state and error registration (and the
outbox) is left unchanged; consequently a dispatch after a subsequent
`connect()` and successful open invokes exactly the callbacks a dispatch
before the disconnect would have invoked. -/
theorem disconnect_touches_only_connection_state (s : ClientState)
    (throws : Nat → Bool) (p : TaskProgress) :
    (disconnect s).taskCallbacks = s.taskCallbacks ∧
    (disconnect s).globalProgressCallbacks = s.globalProgressCallbacks ∧
    (disconnect s).connectionCallbacks = s.connectionCallbacks ∧
    (disconnect s).errorCallbacks = s.errorCallbacks ∧
    (disconnect s).outbox = s.outbox ∧
    (disconnect s).isManualClose = true ∧
    (disconnect s).pingActive = false ∧
    (disconnect s).ws = none ∧
    (handleTaskProgress throws
        (evOpen (connectCall (disconnect s)).1).1 p).2.1
      = (handleTaskProgress throws s p).2.1 := by
  rw [disconnect_eq]
  refine ⟨rfl, rfl, rfl, rfl, rfl, rfl, rfl, rfl, ?_⟩
  apply handleTaskProgress_invoked_congr
  · simp [connectCall, isConnected, evOpen]
  · simp [connectCall, isConnected, evOpen]

/-- C6: a reconnect timer that fires after `disconnect()` was called is
skipped: the timer is consumed but no connection is constructed (socket
handle and socket-id counter unchanged, no new pending promise). -/
theorem pending_reconnect_skipped_after_disconnect (s : ClientState) :
    (disconnect s).isManualClose = true ∧
    (fireReconnect (disconnect s)).ws = none ∧
    (fireReconnect (disconnect s)).nextSocketId = s.nextSocketId ∧
    (fireReconnect (disconnect s)).connectPending
      = (disconnect s).connectPending ∧
    (fireReconnect (disconnect s)).pendingReconnects
      = s.pendingReconnects.tail ∧
    (fireReconnect (disconnect s)).taskCallbacks = s.taskCallbacks := by
  rw [disconnect_eq]
  cases hd : s.pendingReconnects with
  | nil => simp [fireReconnect, hd]
  | cons d rest => simp [fireReconnect, hd]

/-- C2 (amended): when a `connect()` attempt with its promise still pending
fails, the error event rejects that promise and notifies every registered
error observer, and the error handler itself schedules no reconnect; however
the close event that follows the failed attempt is handled by the same
`onclose` handler as a post-open closure, so — the closure not being manual
and the attempt counter being below the maximum — a reconnect attempt IS
scheduled: the code does not restrict automatic retry to closures after a
successful open. -/
theorem connect_failure_surfaced (s : ClientState) (w : Socket)
    (hpend : s.connectPending = true) (hw : s.ws = some w)
    (hman : s.isManualClose = false)
    (hatt : s.reconnectAttempts < maxReconnectAttempts) :
    (evError s).2.1 = s.errorCallbacks ∧
    (evError s).2.2 = some Settle.rejected ∧
    (evError s).1.pendingReconnects = s.pendingReconnects ∧
    (evError s).1.scheduledLog = s.scheduledLog ∧
    (evClose (evError s).1).1.pendingReconnects
      = s.pendingReconnects ++ [reconnectDelay * 2 ^ s.reconnectAttempts] := by
  refine ⟨by simp [evError], by simp [evError, hpend], by simp [evError],
    by simp [evError], ?_⟩
  simp [evError, evClose, hw, hman, hatt, scheduleReconnect]

/-- Witness for C2 (amended): a fresh client with error observer 7 whose
first `connect()` attempt fails: the promise rejects and the following close
event schedules the first reconnect. -/
theorem connect_failure_surfaced_witness :
    (evError (connectCall (onError initialState 7)).1).2.2
        = some Settle.rejected ∧
    (evClose (evError (connectCall (onError initialState 7)).1).1).1.pendingReconnects
      = (connectCall (onError initialState 7)).1.pendingReconnects
        ++ [reconnectDelay
              * 2 ^ (connectCall (onError initialState 7)).1.reconnectAttempts] :=
  ⟨(connect_failure_surfaced (connectCall (onError initialState 7)).1
      { id := 0, readyState := ReadyState.connecting } rfl rfl rfl
      (by decide)).2.1,
   (connect_failure_surfaced (connectCall (onError initialState 7)).1
      { id := 0, readyState := ReadyState.connecting } rfl rfl rfl
      (by decide)).2.2.2.2⟩

/-- C2 counterexample: the claim says that when the initial `connect()`
cannot establish a connection no automatic reconnection attempt is
scheduled.  On the concrete trace connect-then-error-then-close from a fresh
client, the promise is rejected and observer 7 notified, yet a reconnect
timer with delay 1000 IS pending afterwards — refuting the no-retry part of
the claim. -/
theorem connect_failure_schedules_retry_cex :
    (evError (connectCall (onError initialState 7)).1).2.1 = [7] ∧
    (evError (connectCall (onError initialState 7)).1).2.2
      = some Settle.rejected ∧
    failedConnectClose.pendingReconnects = [1000] ∧
    failedConnectClose.pendingReconnects ≠ [] := by
  decide

/-- C5: reconnection backoff.  On the concrete trace starting from a
successful open followed by consecutive failures, after the Nth unexpected
close (N ≤ 5) the delays scheduled so far are exactly 1000·2⁰ … 1000·2^(N-1)
— so the Nth attempt is scheduled with delay 1000·2^(N-1) by the close that
ends the (N-1)th failure — and the close ending the 5th failed attempt
schedules no 6th attempt (the failure of each attempt is consumed by the
catch inside the timer callback, never raised).  In general the `onclose`
handler schedules a reconnect with exactly that delay iff the closure is
non-manual and fewer than 5 attempts were made, and a manual closure never
schedules one. -/
theorem reconnect_backoff :
    (∀ n : Nat, n ≤ 5 → 1 ≤ n →
      (afterCloses n).scheduledLog
          = (List.range n).map (fun i => reconnectDelay * 2 ^ i) ∧
        (afterCloses n).reconnectAttempts = n) ∧
    (afterCloses 6).scheduledLog = (afterCloses 5).scheduledLog ∧
    (afterCloses 6).pendingReconnects = [] ∧
    (∀ (s : ClientState) (w : Socket), s.ws = some w →
      s.isManualClose = false →
      (s.reconnectAttempts < maxReconnectAttempts →
        (evClose s).1.pendingReconnects
            = s.pendingReconnects
              ++ [reconnectDelay * 2 ^ s.reconnectAttempts] ∧
          (evClose s).1.reconnectAttempts = s.reconnectAttempts + 1) ∧
      (maxReconnectAttempts ≤ s.reconnectAttempts →
        (evClose s).1.pendingReconnects = s.pendingReconnects ∧
          (evClose s).1.reconnectAttempts = s.reconnectAttempts)) ∧
    (∀ s : ClientState, s.isManualClose = true →
      (evClose s).1.scheduledLog = s.scheduledLog ∧
      (evClose s).1.pendingReconnects = s.pendingReconnects) := by
  refine ⟨by decide, by decide, by decide, ?_, ?_⟩
  · intro s w hw hman
    constructor
    · intro hlt
      simp [evClose, hw, hman, hlt, scheduleReconnect]
    · intro hge
      simp [evClose, hw, hman, Nat.not_lt.mpr hge]
  · intro s hman
    cases hw : s.ws with
    | none => simp [evClose, hw]
    | some w => simp [evClose, hw, hman]

/-- Witness for C5: after the third unexpected close the scheduled delays
are 1000, 2000, 4000 and the attempt counter reads 3. -/
theorem reconnect_backoff_witness :
    (afterCloses 3).scheduledLog
        = (List.range 3).map (fun i => reconnectDelay * 2 ^ i) ∧
    (afterCloses 3).reconnectAttempts = 3 :=
  reconnect_backoff.1 3 (by decide) (by decide)

/-- C7: `unsubscribeFromTask` removes the callback from the per-task set;
when the set thereby becomes empty the whole task entry is removed and an
unsubscribe control message is sent upstream (the transmission happens when
the transport is open — `send` is best-effort); when callbacks remain, the
entry stays and nothing is sent.  A subscribe followed by the matching
unsubscribe on a previously untracked task id restores the callback
registry exactly, so repeated cycles leave the tracked-id count at 0. -/
theorem unsubscribe_removes_and_cleans (s : ClientState) (tid : String)
    (c : Nat) (l : List Nat) (hl : mapGet s.taskCallbacks tid = some l) :
    (setDelete l c = [] →
      mapGet (unsubscribeFromTask s tid c).taskCallbacks tid = none ∧
      (isConnected s = true →
        (unsubscribeFromTask s tid c).outbox
          = s.outbox ++ [CtrlMsg.unsubscribe tid])) ∧
    (setDelete l c ≠ [] →
      mapGet (unsubscribeFromTask s tid c).taskCallbacks tid
          = some (setDelete l c) ∧
      (unsubscribeFromTask s tid c).outbox = s.outbox) ∧
    (∀ s₀ : ClientState, mapGet s₀.taskCallbacks tid = none →
      (unsubscribeFromTask (subscribeToTask s₀ tid c) tid c).taskCallbacks
        = s₀.taskCallbacks) := by
  refine ⟨?_, ?_, fun s₀ h₀ => subscribe_unsubscribe_cycle s₀ tid c h₀⟩
  · intro he
    constructor
    · rw [unsubscribeFromTask_taskCallbacks, hl]
      simp [he, mapGet_mapDelete_self]
    · intro hc
      simp only [unsubscribeFromTask, hl, he, if_pos]
      have : isConnected { s with
          taskCallbacks := mapDelete s.taskCallbacks tid } = true := hc
      simp [send, this]
  · intro he
    constructor
    · rw [unsubscribeFromTask_taskCallbacks, hl]
      simp [he, mapGet_mapSet_self]
    · simp [unsubscribeFromTask, hl, he]

/-- Witness for C7: removing the sole subscriber of t1 from the connected
example client deletes the entry and emits the unsubscribe message. -/
theorem unsubscribe_removes_and_cleans_witness :
    mapGet (unsubscribeFromTask exOpenClient "t1" 3).taskCallbacks "t1"
        = none ∧
    (unsubscribeFromTask exOpenClient "t1" 3).outbox
      = exOpenClient.outbox ++ [CtrlMsg.unsubscribe "t1"] :=
  ⟨((unsubscribe_removes_and_cleans exOpenClient "t1" 3 [3] rfl).1
      (by decide)).1,
   ((unsubscribe_removes_and_cleans exOpenClient "t1" 3 [3] rfl).1
      (by decide)).2 rfl⟩

/-- C10: registering the same callback twice for the same task id stores it
once — for any starting state the second registration leaves the callback
registry unchanged — and (when the id was previously untracked and the
callback is not also a global subscriber) a dispatched event for that id
invokes the callback exactly once, and one `unsubscribeFromTask` removes it
completely, restoring the original registry. -/
theorem subscribe_twice_set_semantics (s : ClientState) (tid : String)
    (c : Nat) (throws : Nat → Bool) (p : TaskProgress)
    (hnone : mapGet s.taskCallbacks tid = none)
    (hglob : c ∉ s.globalProgressCallbacks) (hp : p.taskId = tid) :
    (∀ s₀ : ClientState,
      (subscribeToTask (subscribeToTask s₀ tid c) tid c).taskCallbacks
        = (subscribeToTask s₀ tid c).taskCallbacks) ∧
    List.count c (handleTaskProgress throws
        (subscribeToTask (subscribeToTask s tid c) tid c) p).2.1 = 1 ∧
    (unsubscribeFromTask (subscribeToTask (subscribeToTask s tid c) tid c)
        tid c).taskCallbacks = s.taskCallbacks := by
  have hidem : ∀ s₀ : ClientState,
      (subscribeToTask (subscribeToTask s₀ tid c) tid c).taskCallbacks
        = (subscribeToTask s₀ tid c).taskCallbacks := by
    intro s₀
    rw [subscribeToTask_taskCallbacks, subscribeToTask_taskCallbacks]
    simp [mapGet_mapSet_self, setAdd_idem, mapSet_mapSet]
  have htc : (subscribeToTask (subscribeToTask s tid c) tid c).taskCallbacks
      = s.taskCallbacks ++ [(tid, [c])] := by
    rw [hidem, subscribeToTask_taskCallbacks, hnone]
    simp [setAdd, mapSet_of_get_none s.taskCallbacks tid _ hnone]
  have hgl : (subscribeToTask (subscribeToTask s tid c) tid c).globalProgressCallbacks
      = s.globalProgressCallbacks := by
    rw [subscribeToTask_globals, subscribeToTask_globals]
  refine ⟨hidem, ?_, ?_⟩
  · have hget : mapGet (s.taskCallbacks ++ [(tid, [c])]) tid = some [c] := by
      rw [mapGet_append_of_none _ _ _ hnone]
      simp [mapGet]
    simp [handleTaskProgress, htc, hgl, hp, hget, fanOut_fst,
      List.count_cons, List.count_eq_zero.mpr hglob]
  · rw [unsubscribeFromTask_taskCallbacks, htc,
      mapGet_append_of_none _ _ _ hnone]
    simp [mapGet, setDelete, mapDelete_append,
      mapDelete_of_get_none _ _ hnone, mapDelete]

/-- Witness for C10: callback 5 registered twice for t2 on the example
client fires once on a t2 event and is gone after one unsubscribe. -/
theorem subscribe_twice_set_semantics_witness :
    List.count 5 (handleTaskProgress exThrows
        (subscribeToTask (subscribeToTask exOpenClient "t2" 5) "t2" 5)
        { taskId := "t2", status := TaskStatus.running, progress := 10 }).2.1
        = 1 ∧
    (unsubscribeFromTask
        (subscribeToTask (subscribeToTask exOpenClient "t2" 5) "t2" 5)
        "t2" 5).taskCallbacks = exOpenClient.taskCallbacks :=
  ⟨(subscribe_twice_set_semantics exOpenClient "t2" 5 exThrows
      { taskId := "t2", status := TaskStatus.running, progress := 10 }
      (by decide) (by decide) rfl).2.1,
   (subscribe_twice_set_semantics exOpenClient "t2" 5 exThrows
      { taskId := "t2", status := TaskStatus.running, progress := 10 }
      (by decide) (by decide) rfl).2.2⟩

theorem clearGo_tasks (ts : List (String × TaskProgress)) :
    ∀ (cl : ClientState) (subs : List (String × Nat)),
      (clearGo cl subs ts).2.2
        = ts.filter (fun e => keptByClear e.2.status) := by
  induction ts with
  | nil => intro cl subs; rfl
  | cons e rest ih =>
      intro cl subs
      cases hk : keptByClear e.2.status with
      | true => simp [clearGo, hk, ih]
      | false => cases hsub : mapGet subs e.1 <;> simp [clearGo, hk, hsub, ih]

theorem clearGo_subs_none (ts : List (String × TaskProgress)) :
    ∀ (cl : ClientState) (subs : List (String × Nat)) (tid : String),
      mapGet subs tid = none →
      mapGet (clearGo cl subs ts).2.1 tid = none := by
  induction ts with
  | nil => intro cl subs tid h; exact h
  | cons e rest ih =>
      intro cl subs tid h
      cases hk : keptByClear e.2.status with
      | true =>
          simp only [clearGo, hk, if_pos]
          exact ih cl subs tid h
      | false =>
          cases hsub : mapGet subs e.1 with
          | none => simp only [clearGo, hk]; simp [hsub]; exact ih cl subs tid h
          | some c' =>
              simp only [clearGo, hk]
              simp only [hsub]
              exact ih _ _ tid (mapGet_mapDelete_none subs e.1 tid h)

theorem clearGo_client_none (ts : List (String × TaskProgress)) :
    ∀ (cl : ClientState) (subs : List (String × Nat)) (tid : String),
      mapGet cl.taskCallbacks tid = none →
      mapGet (clearGo cl subs ts).1.taskCallbacks tid = none := by
  induction ts with
  | nil => intro cl subs tid h; exact h
  | cons e rest ih =>
      intro cl subs tid h
      cases hk : keptByClear e.2.status with
      | true =>
          simp only [clearGo, hk, if_pos]
          exact ih cl subs tid h
      | false =>
          cases hsub : mapGet subs e.1 with
          | none => simp only [clearGo, hk]; simp [hsub]; exact ih cl subs tid h
          | some c' =>
              simp only [clearGo, hk]
              simp only [hsub]
              exact ih _ _ tid (unsubscribeFromTask_get_none cl tid e.1 c' h)

theorem clearGo_untouched (ts : List (String × TaskProgress)) :
    ∀ (cl : ClientState) (subs : List (String × Nat)) (tid : String),
      tid ∉ ts.map Prod.fst →
      mapGet (clearGo cl subs ts).2.1 tid = mapGet subs tid ∧
      mapGet (clearGo cl subs ts).1.taskCallbacks tid
        = mapGet cl.taskCallbacks tid := by
  induction ts with
  | nil => intro cl subs tid _; exact ⟨rfl, rfl⟩
  | cons e rest ih =>
      intro cl subs tid hmem
      have hne : tid ≠ e.1 := fun h => hmem (by simp [h])
      have hrest : tid ∉ rest.map Prod.fst := fun h => hmem (by simp [h])
      cases hk : keptByClear e.2.status with
      | true =>
          simp only [clearGo, hk, if_pos]
          exact ih cl subs tid hrest
      | false =>
          cases hsub : mapGet subs e.1 with
          | none => simp only [clearGo, hk]; simp [hsub]; exact ih cl subs tid hrest
          | some c' =>
              have hih :=
                ih (unsubscribeFromTask cl e.1 c') (mapDelete subs e.1) tid hrest
              simp only [clearGo, hk]
              simp only [hsub]
              exact ⟨hih.1.trans (mapGet_mapDelete_ne subs e.1 tid hne),
                hih.2.trans (unsubscribeFromTask_get_ne cl tid e.1 c' hne)⟩

theorem clearGo_removed_subs (ts : List (String × TaskProgress)) :
    ∀ (cl : ClientState) (subs : List (String × Nat)) (tid : String)
      (p : TaskProgress), (tid, p) ∈ ts → keptByClear p.status = false →
      (ts.map Prod.fst).Nodup →
      mapGet (clearGo cl subs ts).2.1 tid = none := by
  induction ts with
  | nil => intro cl subs tid p h; exact absurd h (List.not_mem_nil _)
  | cons e rest ih =>
      intro cl subs tid p hmem hk hnd
      rcases List.mem_cons.mp hmem with he | hmem
      · subst he
        simp only [clearGo, hk]
        cases hsub : mapGet subs tid with
        | none => simp [hsub]; exact clearGo_subs_none rest cl subs tid hsub
        | some c' =>
            simp only [hsub]
            exact clearGo_subs_none rest _ _ tid
              (mapGet_mapDelete_self subs tid)
      · have hne : e.1 ≠ tid := by
          intro h
          have h1 : e.1 ∉ rest.map Prod.fst :=
            (List.nodup_cons.mp (by simpa using hnd)).1
          exact h1 (h ▸ List.mem_map_of_mem Prod.fst hmem)
        have hnd' : (rest.map Prod.fst).Nodup :=
          (List.nodup_cons.mp (by simpa using hnd)).2
        cases hk2 : keptByClear e.2.status with
        | true =>
            simp only [clearGo, hk2, if_pos]
            exact ih cl subs tid p hmem hk hnd'
        | false =>
            cases hsub : mapGet subs e.1 with
            | none =>
                simp only [clearGo, hk2]; simp [hsub]
                exact ih cl subs tid p hmem hk hnd'
            | some c' =>
                simp only [clearGo, hk2]
                simp only [hsub]
                exact ih _ _ tid p hmem hk hnd'

theorem clearGo_removed_client (ts : List (String × TaskProgress)) :
    ∀ (cl : ClientState) (subs : List (String × Nat)) (tid : String)
      (p : TaskProgress) (c : Nat), (tid, p) ∈ ts →
      keptByClear p.status = false → (ts.map Prod.fst).Nodup →
      mapGet subs tid = some c →
      mapGet cl.taskCallbacks tid = some [c] →
      mapGet (clearGo cl subs ts).1.taskCallbacks tid = none := by
  induction ts with
  | nil => intro cl subs tid p c h; exact absurd h (List.not_mem_nil _)
  | cons e rest ih =>
      intro cl subs tid p c hmem hk hnd hsubs hcl
      rcases List.mem_cons.mp hmem with he | hmem
      · subst he
        simp only [clearGo, hk]
        simp only [hsubs]
        have hdel : mapGet (unsubscribeFromTask cl tid c).taskCallbacks tid
            = none := by
          rw [unsubscribeFromTask_taskCallbacks, hcl]
          simp [setDelete_single, mapGet_mapDelete_self]
        exact clearGo_client_none rest _ _ tid hdel
      · have hne : e.1 ≠ tid := by
          intro h
          have h1 : e.1 ∉ rest.map Prod.fst :=
            (List.nodup_cons.mp (by simpa using hnd)).1
          exact h1 (h ▸ List.mem_map_of_mem Prod.fst hmem)
        have hnd' : (rest.map Prod.fst).Nodup :=
          (List.nodup_cons.mp (by simpa using hnd)).2
        cases hk2 : keptByClear e.2.status with
        | true =>
            simp only [clearGo, hk2, if_pos]
            exact ih cl subs tid p c hmem hk hnd' hsubs hcl
        | false =>
            cases hsub : mapGet subs e.1 with
            | none =>
                simp only [clearGo, hk2]; simp [hsub]
                exact ih cl subs tid p c hmem hk hnd' hsubs hcl
            | some c' =>
                simp only [clearGo, hk2]
                simp only [hsub]
                refine ih _ _ tid p c hmem hk hnd' ?_ ?_
                · rw [mapGet_mapDelete_ne subs e.1 tid (Ne.symm hne)]
                  exact hsubs
                · rw [unsubscribeFromTask_get_ne cl tid e.1 c' (Ne.symm hne)]
                  exact hcl

theorem clearGo_kept (ts : List (String × TaskProgress)) :
    ∀ (cl : ClientState) (subs : List (String × Nat)) (tid : String)
      (p : TaskProgress), (tid, p) ∈ ts → keptByClear p.status = true →
      (ts.map Prod.fst).Nodup →
      mapGet (clearGo cl subs ts).2.1 tid = mapGet subs tid ∧
      mapGet (clearGo cl subs ts).1.taskCallbacks tid
        = mapGet cl.taskCallbacks tid := by
  induction ts with
  | nil => intro cl subs tid p h; exact absurd h (List.not_mem_nil _)
  | cons e rest ih =>
      intro cl subs tid p hmem hk hnd
      rcases List.mem_cons.mp hmem with he | hmem
      · subst he
        have hrest : tid ∉ rest.map Prod.fst :=
          (List.nodup_cons.mp (by simpa using hnd)).1
        simp only [clearGo, hk, if_pos]
        exact clearGo_untouched rest cl subs tid hrest
      · have hne : e.1 ≠ tid := by
          intro h
          have h1 : e.1 ∉ rest.map Prod.fst :=
            (List.nodup_cons.mp (by simpa using hnd)).1
          exact h1 (h ▸ List.mem_map_of_mem Prod.fst hmem)
        have hnd' : (rest.map Prod.fst).Nodup :=
          (List.nodup_cons.mp (by simpa using hnd)).2
        cases hk2 : keptByClear e.2.status with
        | true =>
            simp only [clearGo, hk2, if_pos]
            exact ih cl subs tid p hmem hk hnd'
        | false =>
            cases hsub : mapGet subs e.1 with
            | none =>
                simp only [clearGo, hk2]; simp [hsub]
                exact ih cl subs tid p hmem hk hnd'
            | some c' =>
                have hih := ih (unsubscribeFromTask cl e.1 c')
                  (mapDelete subs e.1) tid p hmem hk hnd'
                simp only [clearGo, hk2]
                simp only [hsub]
                exact ⟨hih.1.trans
                    (mapGet_mapDelete_ne subs e.1 tid (Ne.symm hne)),
                  hih.2.trans
                    (unsubscribeFromTask_get_ne cl tid e.1 c' (Ne.symm hne))⟩

/-- C3 (amended): `clearCompleted()` removes from the task map exactly the
entries whose status is success or failed — entries whose status is
cancelled, although terminal, are treated like non-terminal ones and kept —
and for each removed entry it runs and drops the remembered disposer, which
removes the per-task router registration; every kept entry (cancelled
included) retains its disposer and its router registration.  (Task ids in
the map are unique; the coupling premises describe the disposer the adapter
registered.) -/
theorem clearCompleted_spec (s : MultiTaskState)
    (hkeys : (s.tasks.map Prod.fst).Nodup) :
    s.clearCompleted.tasks
        = s.tasks.filter (fun e => keptByClear e.2.status) ∧
    (∀ (tid : String) (p : TaskProgress), (tid, p) ∈ s.tasks →
      keptByClear p.status = false →
      mapGet s.clearCompleted.subs tid = none ∧
      (∀ c : Nat, mapGet s.subs tid = some c →
        mapGet s.client.taskCallbacks tid = some [c] →
        mapGet s.clearCompleted.client.taskCallbacks tid = none)) ∧
    (∀ (tid : String) (p : TaskProgress), (tid, p) ∈ s.tasks →
      keptByClear p.status = true →
      mapGet s.clearCompleted.subs tid = mapGet s.subs tid ∧
      mapGet s.clearCompleted.client.taskCallbacks tid
        = mapGet s.client.taskCallbacks tid) := by
  refine ⟨clearGo_tasks s.tasks s.client s.subs, ?_, ?_⟩
  · intro tid p hmem hk
    refine ⟨clearGo_removed_subs s.tasks s.client s.subs tid p hmem hk hkeys,
      fun c hc hcl =>
        clearGo_removed_client s.tasks s.client s.subs tid p c hmem hk hkeys
          hc hcl⟩
  · intro tid p hmem hk
    exact clearGo_kept s.tasks s.client s.subs tid p hmem hk hkeys

/-- C3 counterexample: cancelled is a terminal status, yet running
`clearCompleted()` on an adapter holding one cancelled task keeps the task
entry, keeps its disposer, and keeps its router registration — refuting the
claim that every terminal entry is removed and unsubscribed. -/
theorem clearCompleted_keeps_cancelled_cex :
    TaskStatus.isTerminal TaskStatus.cancelled = true ∧
    mapGet exMulti.clearCompleted.tasks "t1" = some exCancelled ∧
    mapGet exMulti.clearCompleted.subs "t1" = some 0 ∧
    mapGet exMulti.clearCompleted.client.taskCallbacks "t1" = some [0] := by
  decide

/-- Witness for C3 (amended) at the example adapter: the cancelled entry
survives the filter. -/
theorem clearCompleted_spec_witness :
    exMulti.clearCompleted.tasks
      = exMulti.tasks.filter (fun e => keptByClear e.2.status) :=
  (clearCompleted_spec exMulti (by decide)).1

end Pixcore
